import Mathlib

/-!
Shallow embedding of the goporo/garage-iot ANPR server:
`src/app.py` (Flask controller, occupancy counter, background worker) and
`src/license-detector/main.py` (class LicensePlateDetector).

External collaborators (the YOLO models, the EasyOCR engine, the OpenCV
image operators, the network and the SQLite store) are modelled as explicit
parameters: every embedded function takes their outputs as inputs and
reproduces, exactly, the arithmetic and control flow the repository
performs on them.  Python floats are modelled as exact rationals; every
float comparison in the source is over quotients of integers small enough
that double rounding never crosses the compared threshold, so the rational
model decides each comparison exactly as CPython does.
-/

namespace Garage

/-! ### Data model -/

/-- Axis-aligned rectangle `(x1, y1, x2, y2)` in frame coordinates: the
`bbox` 4-tuples used throughout `license-detector/main.py`. -/
structure Region where
  x1 : Int
  y1 : Int
  x2 : Int
  y2 : Int
deriving DecidableEq

/-- Output of `cv2.boundingRect`: top-left corner plus width and height. -/
structure Rect where
  x : Int
  y : Int
  w : Int
  h : Int
deriving DecidableEq

/-- One localizer candidate: the `{'bbox', 'confidence'}` dict built by
`detect_license_plates_with_yolo` and consumed by `process_image`. -/
structure PlateCandidate where
  bbox : Region
  confidence : ℚ
deriving DecidableEq

/-- Candidate dict built by `detect_license_plates_traditional`, which also
carries the `'score'` key used for ranking. -/
structure TradCandidate where
  bbox : Region
  confidence : ℚ
  score : ℚ
deriving DecidableEq

/-- The `{'plate_number', 'bbox', 'confidence'}` result dict appended by
`process_image`. -/
structure PlateResult where
  plate_number : String
  bbox : Region
  confidence : ℚ
deriving DecidableEq

/-- Row of the `CarEvent` table (`models.py`), as appended by
`add_car_event` and by the background worker. -/
structure CarEvent where
  plate : String
  event : String
  image_path : Option String
deriving DecidableEq

/-- The mutable server state the claims are about: the module-global
`pending_reservations` counter of `app.py` and the append-only `CarEvent`
store.  The slot table and the occupancy history never interact with the
counter and are omitted. -/
structure ServerState where
  pending_reservations : Int
  events : List CarEvent
deriving DecidableEq

/-- Constant `TOTAL_SLOT = 4` of `app.py` line 9. -/
def TOTAL_SLOT : Int := 4

/-- Process start: `pending_reservations = 0` (`app.py` line 58), no events. -/
def initialState : ServerState := { pending_reservations := 0, events := [] }

/-! ### Plate text validator (`is_valid_plate_text`, main.py lines 198-211) -/

/-- Character classification of the Python runtime's Unicode database:
`str.isalpha`, `str.isdigit`, `str.isalnum` and `str.isspace` applied to a
single character.  The source consults these classes but does not define
them (they are external data, like the detector weights), and CPython's
versions are Unicode-aware, so the embedding is parametric in them: a
theorem quantified over `CharClasses` holds in particular for the exact
CPython classification, non-ASCII characters included.  Note `isalnum` is
kept as its own oracle: on Unicode it is strictly wider than
`isalpha ∨ isdigit` (e.g. numeric characters that are not digits). -/
structure CharClasses where
  isalpha : Char → Bool
  isdigit : Char → Bool
  isalnum : Char → Bool
  isspace : Char → Bool

/-- The ASCII fragment of CPython's classification: it agrees with
`str.isalpha` / `str.isdigit` / `str.isalnum` / `str.isspace` on every code
point below 128 (there, `isalnum` is exactly `isalpha or isdigit`, and the
whitespace characters are space, TAB, LF, VT, FF, CR).  Used only to
instantiate theorems at concrete all-ASCII inputs, where it therefore
computes exactly what CPython computes. -/
def asciiClasses : CharClasses where
  isalpha c := c.isAlpha
  isdigit c := c.isDigit
  isalnum c := c.isAlpha || c.isDigit
  isspace c := decide (c = ' ' ∨ c = '\t' ∨ c = '\n' ∨ c = '\x0b' ∨
    c = '\x0c' ∨ c = '\r')

/-- Function `is_valid_plate_text(text)`, parametric in the runtime's
character classes.  Notes on the translation: `text.replace(' ', '')`
removes spaces, and only spaces, so the cleaned form keeps every other
whitespace character; the float test
`sum(c.isalnum() ...) / len(text_clean) >= 0.8` is written as
`4 * len ≤ 5 * count`, which is exactly equivalent for the lengths ≤ 12
admitted here (IEEE rounding of `count/len` and of the literal `0.8` never
crosses the threshold at these denominators). -/
def is_valid_plate_text (cls : CharClasses) (text : String) : Bool :=
  if text = "" ∨ text.length < 4 then false
  else
    let text_clean := text.toList.filter (fun c => c != ' ')
    let has_letter := text_clean.any (fun c => cls.isalpha c)
    let has_number := text_clean.any (fun c => cls.isdigit c)
    if ¬ (has_letter = true ∧ has_number = true ∧
          5 ≤ text_clean.length ∧ text_clean.length ≤ 12) then false
    else
      decide (4 * text_clean.length ≤
        5 * (text_clean.filter (fun c => cls.isalnum c)).length)

/-- Rules 1-4 of spec §4.1 read literally, over the same character classes:
the analysed form is the WHITESPACE-stripped text (the spec says "Strip
whitespace") and the density bound is the stated `0.80`.  This is the
spec-side formula claim C4 compares against `is_valid_plate_text`, which
strips only the space character. -/
def spec_is_valid (cls : CharClasses) (text : String) : Prop :=
  let s := text.toList.filter (fun c => !cls.isspace c)
  4 ≤ text.length ∧
  (∃ c ∈ s, cls.isalpha c) ∧ (∃ c ∈ s, cls.isdigit c) ∧
  5 ≤ s.length ∧ s.length ≤ 12 ∧
  (0.8 : ℚ) ≤ ((s.filter (fun c => cls.isalnum c)).length : ℚ) / (s.length : ℚ)

/-- The four §4.1 rules over the SPACE-stripped form, matching the source's
`text.replace(' ', '')`: the amendment claim C4 is corrected to, again
parametric in the same character classes. -/
def space_stripped_valid (cls : CharClasses) (text : String) : Prop :=
  let s := text.toList.filter (fun c => c != ' ')
  4 ≤ text.length ∧
  (∃ c ∈ s, cls.isalpha c) ∧ (∃ c ∈ s, cls.isdigit c) ∧
  5 ≤ s.length ∧ s.length ≤ 12 ∧
  (0.8 : ℚ) ≤ ((s.filter (fun c => cls.isalnum c)).length : ℚ) / (s.length : ℚ)

/-! ### Text extractor (`extract_text_from_plate`, main.py lines 163-196)

The OCR engine and the OpenCV preprocessing are opaque: one pipeline run is
a list of passes (original image, Otsu, CLAHE), each pass either raising
(`Except.error ()`: engine error, malformed input) or producing the token
list `reader.readtext(...)` returns.  The embedding reproduces the
validation, selection and normalization the source performs on those
tokens, with the whole body running inside `Except` and the `try/except`
boundary catching at the end. -/

/-- Python `' '.join(result).strip()` applied to one OCR pass. -/
def joinedText (tokens : List String) : String :=
  (String.intercalate " " tokens).trim

/-- The `for img in methods:` loop body: a raised pass aborts the whole
extraction (the `try` block wraps the loop); a non-empty token list whose
joined text validates is appended to `ocr_results`. -/
def collectOcr (cls : CharClasses) :
    List (Except Unit (List String)) → Except Unit (List String)
  | [] => Except.ok []
  | p :: rest =>
    match p with
    | Except.error e => Except.error e
    | Except.ok tokens =>
      match collectOcr cls rest with
      | Except.error e => Except.error e
      | Except.ok acc =>
        if tokens ≠ [] ∧ is_valid_plate_text cls (joinedText tokens) = true
        then Except.ok (joinedText tokens :: acc)
        else Except.ok acc

/-- Python `max(ocr_results, key=len)`: the first of the maximal-length strings. -/
def maxByLen : List String → String
  | [] => ""
  | [s] => s
  | s :: rest =>
    let m := maxByLen (rest)
    if s.length < m.length then m else s

/-- Python `re.sub` of `[^A-Z0-9\s]` with `''` over `best.upper()`, then `strip()`: uppercase, delete
every character outside `A-Z`, `0-9` and whitespace, trim. -/
def normalizePlate (s : String) : String :=
  (String.mk (s.toUpper.toList.filter
    (fun c => (decide ('A' ≤ c) && decide (c ≤ 'Z')) ||
              (decide ('0' ≤ c) && decide (c ≤ '9')) || c.isWhitespace))).trim

/-- The body of `extract_text_from_plate` inside the `try` block. -/
def extractTextCore (cls : CharClasses)
    (passes : List (Except Unit (List String))) : Except Unit String :=
  match collectOcr cls passes with
  | Except.error e => Except.error e
  | Except.ok ocr_results =>
    if ocr_results ≠ [] then Except.ok (normalizePlate (maxByLen ocr_results))
    else Except.ok ""

/-- Function `extract_text_from_plate`: the `except Exception` handler degrades any
internal failure to the empty string. -/
def extract_text_from_plate (cls : CharClasses)
    (passes : List (Except Unit (List String))) : String :=
  match extractTextCore cls passes with
  | Except.ok s => s
  | Except.error _ => ""

/-! ### Plate localizer (main.py lines 74-160) -/

/-- Function `detect_license_plates_with_yolo`: when a custom plate model is loaded,
one candidate per model box, with the model's own confidence, in the
model's order; otherwise the empty list.  `model_boxes` is the
integer-truncated `box.xyxy` output of the opaque model. -/
def detect_license_plates_with_yolo (use_plate_model : Bool)
    (model_boxes : List (Region × ℚ)) : List PlateCandidate :=
  if use_plate_model then
    model_boxes.map (fun b => { bbox := b.1, confidence := b.2 })
  else []

/-- The contour filter of `detect_license_plates_traditional`:
`2.0 <= aspect_ratio <= 6.0 and w > 80 and h > 20 and 2000 < area < 50000`,
with `aspect_ratio = w / float(h) if h > 0 else 0`.  Exact rationals stand
for the float quotient; for the integer ranges passing the size filters the
float and rational comparisons agree. -/
def acceptRect (r : Rect) : Bool :=
  let ar : ℚ := if 0 < r.h then (r.w : ℚ) / (r.h : ℚ) else 0
  decide (2 ≤ ar ∧ ar ≤ 6 ∧ 80 < r.w ∧ 20 < r.h ∧
    2000 < r.w * r.h ∧ r.w * r.h < 50000)

/-- The 10px-per-side padding clamped to the search image:
`x, y = max(0, x-10), max(0, y-10); w = min(sw - x, w+20); h = min(sh - y, h+20)`. -/
def padRect (sw sh : Int) (r : Rect) : Rect :=
  let x := max 0 (r.x - 10)
  let y := max 0 (r.y - 10)
  { x := x, y := y, w := min (sw - x) (r.w + 20), h := min (sh - y) (r.h + 20) }

/-- Candidate dict built from one accepted contour rectangle: padded bbox
shifted by the search-image offset, `'confidence': 0.0`, and
`'score': area * aspect_ratio` of the unpadded rectangle. -/
def tradCandidateOf (sw sh ox oy : Int) (r : Rect) : TradCandidate :=
  let p := padRect sw sh r
  { bbox := { x1 := p.x + ox, y1 := p.y + oy,
              x2 := p.x + p.w + ox, y2 := p.y + p.h + oy }
  , confidence := 0
  , score := ((r.w * r.h : Int) : ℚ) *
      (if 0 < r.h then (r.w : ℚ) / (r.h : ℚ) else 0) }

/-- Search-image geometry `(offset_x, offset_y, width, height)`.  With a
vehicle region the search starts at the lower 70%:
`y1 = int(y1 + (y2 - y1) * 0.3)`, which for the frame sizes at hand equals
the floor `(3 * (y2 - y1)) / 10` (the float product deviates from
`0.3 * d` by far less than its distance to the next integer, except at
multiples of 10 where it rounds to that exact integer).  NumPy slicing
makes the shape `(y2 - y1, x2 - x1)` exact whenever the region is inside
the frame, the case the theorems hypothesise. -/
def searchGeom (W H : Int) : Option Region → Int × Int × Int × Int
  | some v =>
    let y1 := v.y1 + (3 * (v.y2 - v.y1)) / 10
    (v.x1, y1, v.x2 - v.x1, v.y2 - y1)
  | none => (0, 0, W, H)

/-- The duplicate test of the edge-detection pass:
`abs(bbox[0] - c['bbox'][0]) < 30 and abs(bbox[1] - c['bbox'][1]) < 30`. -/
def closeTo (a b : Region) : Bool :=
  decide (|a.x1 - b.x1| < 30 ∧ |a.y1 - b.y1| < 30)

/-- One iteration of the second (Canny) contour loop: an accepted rectangle
is appended unless its corner is within 30px of an existing candidate. -/
def tradStep (sw sh ox oy : Int) (acc : List TradCandidate) (r : Rect) :
    List TradCandidate :=
  if acceptRect r = true then
    if acc.any (fun c0 => closeTo (tradCandidateOf sw sh ox oy r).bbox c0.bbox)
    then acc
    else acc ++ [tradCandidateOf sw sh ox oy r]
  else acc

/-- Function `detect_license_plates_traditional`.  The two OpenCV contour passes are
opaque: `rects1` are the `cv2.boundingRect` outputs of the blackhat
pipeline's contours, `rects2` those of the Canny pipeline, both relative to
the search image.  The embedding reproduces the filtering, padding,
offsetting, 30px deduplication, descending stable sort by score, and the
`[:5]` truncation. -/
def detect_license_plates_traditional (W H : Int) (rects1 rects2 : List Rect)
    (vehicle_region : Option Region) : List TradCandidate :=
  let g := searchGeom W H vehicle_region
  let ox := g.1
  let oy := g.2.1
  let sw := g.2.2.1
  let sh := g.2.2.2
  let cands1 := (rects1.filter acceptRect).map (tradCandidateOf sw sh ox oy)
  let cands := rects2.foldl (tradStep sw sh ox oy) cands1
  (cands.mergeSort (fun a b => decide (b.score ≤ a.score))).take 5

/-- The bound spec §3 and claim C5 assert of every localizer Region:
`0 ≤ x1 < x2 ≤ frame_width` and `0 ≤ y1 < y2 ≤ frame_height`. -/
def regionWithinFrame (W H : Int) (r : Region) : Prop :=
  0 ≤ r.x1 ∧ r.x1 < r.x2 ∧ r.x2 ≤ W ∧ 0 ≤ r.y1 ∧ r.y1 < r.y2 ∧ r.y2 ≤ H

instance (W H : Int) (r : Region) : Decidable (regionWithinFrame W H r) := by
  unfold regionWithinFrame
  infer_instance

/-! ### Orchestrator (`process_image`, main.py lines 214-273) -/

/-- The per-candidate loop of `process_image`: crop to the candidate's
bbox, run the extractor (`extractOf` maps a crop region to the extracted
string — the OCR chain is opaque), keep a result when the text is non-empty
and revalidates. -/
def rawResults (cls : CharClasses) (extractOf : Region → String)
    (plate_candidates : List PlateCandidate) : List PlateResult :=
  plate_candidates.filterMap (fun pc =>
    let license_text := extractOf pc.bbox
    if license_text ≠ "" ∧ is_valid_plate_text cls license_text = true then
      some { plate_number := license_text, bbox := pc.bbox,
             confidence := pc.confidence }
    else none)

/-- The `seen` loop of main.py lines 266-272, keeping the first result per
plate string. -/
def removeDuplicatesFrom (seen : List String) :
    List PlateResult → List PlateResult
  | [] => []
  | r :: rest =>
    if r.plate_number ∈ seen then removeDuplicatesFrom seen rest
    else r :: removeDuplicatesFrom (r.plate_number :: seen) rest

/-- List `unique_results` as computed at the end of `process_image`. -/
def removeDuplicates (results : List PlateResult) : List PlateResult :=
  removeDuplicatesFrom [] results

/-- Return value plus the two frame effects of `process_image`:
`drewBoxes` records whether any `cv2.rectangle`/`cv2.putText` annotation
was drawn on the frame, `written` the path `cv2.imwrite` was called with
(none when it was not called). -/
structure ProcessOutput where
  results : List PlateResult
  drewBoxes : Bool
  written : Option String
deriving DecidableEq

/-- Function `process_image(image, save_result, output_path)` given the localizer's
candidate list.  Annotations are drawn per accepted result when
`save_result` holds; `cv2.imwrite` runs whenever `save_result` holds and an
output path is supplied, independently of the result list; deduplication
happens last. -/
def process_image (cls : CharClasses) (extractOf : Region → String)
    (plate_candidates : List PlateCandidate)
    (save_result : Bool) (output_path : Option String) : ProcessOutput :=
  let results := rawResults cls extractOf plate_candidates
  { results := removeDuplicates results
  , drewBoxes := save_result && !results.isEmpty
  , written := if save_result = true ∧ output_path.isSome = true then
      output_path else none }

/-! ### Async trigger and reconciliation controller (`app.py`) -/

/-- HTTP outcome of the `/api/detect_plate` trigger. -/
inductive TriggerResult where
  | accepted (event : String)
  | clientError
deriving DecidableEq

/-- HTTP outcome of the synchronous `/api/car_event` report. -/
inductive ApiStatus where
  | ok
  | clientError
deriving DecidableEq

/-- Outcome of one background worker run (spec §4.6 state names). -/
inductive WorkerOutcome where
  | abandoned
  | committed
deriving DecidableEq

/-- Counter effect of an accepted "enter" trigger (`app.py` line 144): the
optimistic reservation `pending_reservations = min(TOTAL_SLOT, n + 1)`. -/
def enterReserved (s : ServerState) : ServerState :=
  { s with pending_reservations := min TOTAL_SLOT (s.pending_reservations + 1) }

/-- Handler `detect_plate` (`/api/detect_plate`).  `body = none` models a request
without a JSON body (`get_json(silent=True)` yields `None`, replaced by
`{}`); `some none` a body without an `"event"` key; in both cases
`data.get('event', 'enter')` yields `"enter"`.  The returned `Bool` records
whether a background worker thread was started.  The `detector is None`
guard never fires (the detector is constructed at import time). -/
def detect_plate (body : Option (Option String)) (s : ServerState) :
    TriggerResult × ServerState × Bool :=
  let event_type := match body with
    | none => "enter"
    | some none => "enter"
    | some (some e) => e
  if ¬ (event_type = "enter" ∨ event_type = "exit") then
    (TriggerResult.clientError, s, false)
  else
    let s' := if event_type = "enter" then enterReserved s else s
    (TriggerResult.accepted event_type, s', true)

/-- Handler `add_car_event` (`/api/car_event`).  The fields are the request's JSON
values; Python's `not plate or not event` treats a missing key and an empty
string alike.  On a validated "exit" the counter is decremented after the
row is committed, floored at 0 (`app.py` lines 118-120). -/
def add_car_event (plate event : Option String) (s : ServerState) :
    ApiStatus × ServerState :=
  let p := plate.getD ""
  let e := event.getD ""
  if p = "" ∨ e = "" then (ApiStatus.clientError, s)
  else if ¬ (e = "enter" ∨ e = "exit") then (ApiStatus.clientError, s)
  else
    let s' : ServerState := { s with
      events := s.events ++ [{ plate := p, event := e, image_path := none }] }
    if e = "exit" then
      (ApiStatus.ok, { s' with
        pending_reservations := max (s'.pending_reservations - 1) 0 })
    else (ApiStatus.ok, s')

/-- Worker `process_plate_detection`.  `fetched` is the
outcome of `detector.fetch_esp32_image` (`false` = `None`: timeout, non-200
status, network error or decode failure); `results` is the list
`detector.process_image` returned; `image_uri` the `/data/...` relative
path.  A failed fetch or an empty result list ends the run with an early
`return` (ABANDONED); otherwise the first result is committed as a
`CarEvent`.  The worker never touches `pending_reservations`. -/
def process_plate_detection (fetched : Bool) (results : List PlateResult)
    (event_type : String) (image_uri : String) (s : ServerState) :
    WorkerOutcome × ServerState :=
  if fetched = false then (WorkerOutcome.abandoned, s)
  else
    match results with
    | [] => (WorkerOutcome.abandoned, s)
    | r :: _ =>
      (WorkerOutcome.committed,
        { s with events := s.events ++
            [{ plate := r.plate_number, event := event_type,
               image_path := some image_uri }] })

/-- One server-level operation, for stating counter invariants over request
sequences.  `readOnly` stands for every remaining route (`/api/update`,
`/api/occupancy`, `/api/summary`, `/api/map`, `/api/history`,
`/api/car_log`, `/data/...`, `/`, `/health`): none of them assigns
`pending_reservations`. -/
inductive Op where
  | trigger (body : Option (Option String))
  | report (plate event : Option String)
  | workerRun (fetched : Bool) (results : List PlateResult)
      (event_type image_uri : String)
  | readOnly

/-- State transition of one operation. -/
def applyOp (s : ServerState) : Op → ServerState
  | Op.trigger body => (detect_plate body s).2.1
  | Op.report plate event => (add_car_event plate event s).2
  | Op.workerRun fetched results e u =>
      (process_plate_detection fetched results e u s).2
  | Op.readOnly => s

/-- Run a request sequence from a state. -/
def runOps (s : ServerState) (ops : List Op) : ServerState :=
  ops.foldl applyOp s

/-- Scenario E composition: an "enter" trigger followed by a synchronous
"exit" report for the same logical vehicle. -/
def enterThenExitReport (plate : String) (s : ServerState) : ServerState :=
  (add_car_event (some plate) (some "exit")
    (detect_plate (some (some "enter")) s).2.1).2

/-! ### Counter transition lemmas -/

theorem detect_plate_counter (body : Option (Option String)) (s : ServerState) :
    (detect_plate body s).2.1.pending_reservations = s.pending_reservations ∨
    (detect_plate body s).2.1.pending_reservations
      = min TOTAL_SLOT (s.pending_reservations + 1) := by
  rcases body with _ | (_ | e)
  · exact Or.inr rfl
  · exact Or.inr rfl
  · by_cases he : e = "enter"
    · subst he; exact Or.inr rfl
    · by_cases hx : e = "exit"
      · subst hx; exact Or.inl rfl
      · simp [detect_plate, he, hx]

theorem add_car_event_counter (plate event : Option String) (s : ServerState) :
    (add_car_event plate event s).2.pending_reservations
      = s.pending_reservations ∨
    (add_car_event plate event s).2.pending_reservations
      = max (s.pending_reservations - 1) 0 := by
  unfold add_car_event
  dsimp only
  split
  · exact Or.inl rfl
  · split
    · exact Or.inl rfl
    · split
      · exact Or.inr rfl
      · exact Or.inl rfl

theorem worker_counter (fetched : Bool) (results : List PlateResult)
    (e u : String) (s : ServerState) :
    (process_plate_detection fetched results e u s).2.pending_reservations
      = s.pending_reservations := by
  unfold process_plate_detection
  split
  · rfl
  · split
    · rfl
    · rfl

theorem applyOp_counter (s : ServerState) (op : Op) :
    (applyOp s op).pending_reservations = s.pending_reservations ∨
    (applyOp s op).pending_reservations
      = min TOTAL_SLOT (s.pending_reservations + 1) ∨
    (applyOp s op).pending_reservations
      = max (s.pending_reservations - 1) 0 := by
  cases op with
  | trigger body =>
    rcases detect_plate_counter body s with h | h
    · exact Or.inl h
    · exact Or.inr (Or.inl h)
  | report plate event =>
    rcases add_car_event_counter plate event s with h | h
    · exact Or.inl h
    · exact Or.inr (Or.inr h)
  | workerRun fetched results e u =>
    exact Or.inl (worker_counter fetched results e u s)
  | readOnly => exact Or.inl rfl

theorem runOps_counter_bounds (ops : List Op) : ∀ s : ServerState,
    0 ≤ s.pending_reservations → s.pending_reservations ≤ TOTAL_SLOT →
    0 ≤ (runOps s ops).pending_reservations ∧
      (runOps s ops).pending_reservations ≤ TOTAL_SLOT := by
  induction ops with
  | nil => exact fun s h0 h1 => ⟨h0, h1⟩
  | cons op rest ih =>
    intro s h0 h1
    have hstep : 0 ≤ (applyOp s op).pending_reservations ∧
        (applyOp s op).pending_reservations ≤ TOTAL_SLOT := by
      rcases applyOp_counter s op with h | h | h <;>
        rw [h] <;> unfold TOTAL_SLOT at * <;> omega
    have : runOps s (op :: rest) = runOps (applyOp s op) rest := rfl
    rw [this]
    exact ih (applyOp s op) hstep.1 hstep.2

/-- Claim C1: starting from its initial value 0, under every sequence of
detect-plate triggers, car-event reports, worker completions and read-only
requests, `pending_reservations` stays within `[0, TOTAL_SLOT]`; an
"enter" trigger sets it to `min TOTAL_SLOT (n + 1)`, a validated "exit"
report to `max (n - 1) 0`, the background worker and every other route
leave it unchanged, and no operation has any third effect on it. -/
theorem C1_counter_bounds :
    (∀ ops : List Op,
        0 ≤ (runOps initialState ops).pending_reservations ∧
        (runOps initialState ops).pending_reservations ≤ TOTAL_SLOT) ∧
    (∀ s : ServerState,
        (applyOp s (Op.trigger (some (some "enter")))).pending_reservations
          = min TOTAL_SLOT (s.pending_reservations + 1)) ∧
    (∀ (s : ServerState) (plate : String), plate ≠ "" →
        (applyOp s (Op.report (some plate) (some "exit"))).pending_reservations
          = max (s.pending_reservations - 1) 0) ∧
    (∀ (s : ServerState) (fetched : Bool) (results : List PlateResult)
        (e u : String),
        (applyOp s (Op.workerRun fetched results e u)).pending_reservations
          = s.pending_reservations) ∧
    (∀ s : ServerState,
        (applyOp s Op.readOnly).pending_reservations
          = s.pending_reservations) ∧
    (∀ (s : ServerState) (op : Op),
        (applyOp s op).pending_reservations = s.pending_reservations ∨
        (applyOp s op).pending_reservations
          = min TOTAL_SLOT (s.pending_reservations + 1) ∨
        (applyOp s op).pending_reservations
          = max (s.pending_reservations - 1) 0) := by
  refine ⟨fun ops => runOps_counter_bounds ops initialState (by decide) (by decide),
    fun s => rfl, ?_, fun s f res e u => worker_counter f res e u s,
    fun s => rfl, applyOp_counter⟩
  intro s plate hp
  simp [applyOp, add_car_event, hp]

/-- Witness for C1: a concrete validated "exit" report decrements the
counter with the floor at 0. -/
theorem C1_counter_bounds_witness :
    (applyOp initialState
        (Op.report (some "ABC1234") (some "exit"))).pending_reservations
      = max (initialState.pending_reservations - 1) 0 :=
  C1_counter_bounds.2.2.1 initialState "ABC1234" (by decide)

/-- Counterexample to claim C3 as stated: at capacity
(`pending_reservations = TOTAL_SLOT`) the "enter" trigger is clamped, so
the enter-then-exit round trip ends at `TOTAL_SLOT - 1`, not at the
pre-enter value. -/
theorem C3_counterexample :
    (enterThenExitReport "ABC1234"
        { pending_reservations := TOTAL_SLOT, events := [] }).pending_reservations
      ≠ TOTAL_SLOT := by decide

/-- Claim C3 amended: for every starting value strictly below capacity, an
"enter" trigger followed by one validated "exit" report returns the counter
to its pre-enter value; at capacity the clamped enter loses the increment
and the round trip ends at `TOTAL_SLOT - 1`. -/
theorem C3_enter_exit (c : Int) (ev : List CarEvent) (plate : String)
    (hp : plate ≠ "") (h0 : 0 ≤ c) (h1 : c ≤ TOTAL_SLOT) :
    (enterThenExitReport plate
        { pending_reservations := c, events := ev }).pending_reservations
      = if c < TOTAL_SLOT then c else TOTAL_SLOT - 1 := by
  simp only [enterThenExitReport]
  simp [detect_plate, add_car_event, enterReserved, hp]
  simp only [TOTAL_SLOT] at *
  split <;> omega

/-- Witness for C3: starting from 2 of 4 slots reserved, enter then exit
returns the counter to 2. -/
theorem C3_enter_exit_witness :
    (enterThenExitReport "ABC1234"
        { pending_reservations := 2, events := [] }).pending_reservations
      = if (2 : Int) < TOTAL_SLOT then 2 else TOTAL_SLOT - 1 :=
  C3_enter_exit 2 [] "ABC1234" (by decide) (by decide) (by decide)

/-- Claim C9: when image acquisition fails after an "enter" trigger, the
worker ends ABANDONED, the `CarEvent` store is exactly what it was before
the trigger, and the counter keeps its optimistic post-increment value
`min TOTAL_SLOT (n + 1)` — the reservation is not rolled back. -/
theorem C9_fetch_fail (s : ServerState) (results : List PlateResult)
    (u : String) :
    process_plate_detection false results "enter" u
        (detect_plate (some (some "enter")) s).2.1
      = (WorkerOutcome.abandoned, (detect_plate (some (some "enter")) s).2.1) ∧
    (detect_plate (some (some "enter")) s).2.1.events = s.events ∧
    (detect_plate (some (some "enter")) s).2.1.pending_reservations
      = min TOTAL_SLOT (s.pending_reservations + 1) := by
  exact ⟨rfl, rfl, rfl⟩

/-- Claim C10: a trigger with no body or no `"event"` key is handled as an
"enter" (counter incremented, worker dispatched, 202 naming "enter"); a
supplied event is rejected with a client error, before any mutation and
with no worker, exactly when it is neither "enter" nor "exit". -/
theorem C10_trigger_default (s : ServerState) (e : String) :
    detect_plate none s
      = (TriggerResult.accepted "enter", enterReserved s, true) ∧
    detect_plate (some none) s
      = (TriggerResult.accepted "enter", enterReserved s, true) ∧
    detect_plate (some (some e)) s
      = (if e = "enter" then (TriggerResult.accepted "enter", enterReserved s, true)
         else if e = "exit" then (TriggerResult.accepted "exit", s, true)
         else (TriggerResult.clientError, s, false)) ∧
    ((detect_plate (some (some e)) s).1 = TriggerResult.clientError ↔
      (e ≠ "enter" ∧ e ≠ "exit")) := by
  refine ⟨rfl, rfl, ?_, ?_⟩ <;>
    by_cases he : e = "enter" <;> by_cases hx : e = "exit" <;>
      simp [detect_plate, he, hx]

/-! ### Deduplication lemmas -/

theorem removeDuplicatesFrom_sublist (seen : List String)
    (l : List PlateResult) : (removeDuplicatesFrom seen l).Sublist l := by
  induction l generalizing seen with
  | nil => simp [removeDuplicatesFrom]
  | cons r rest ih =>
    simp only [removeDuplicatesFrom]
    split
    · exact (ih seen).cons r
    · exact (ih _).cons₂ r

theorem removeDuplicatesFrom_nodup (seen : List String)
    (l : List PlateResult) :
    ((removeDuplicatesFrom seen l).map (fun r => r.plate_number)).Nodup ∧
    ∀ r ∈ removeDuplicatesFrom seen l, r.plate_number ∉ seen := by
  induction l generalizing seen with
  | nil => simp [removeDuplicatesFrom]
  | cons r rest ih =>
    simp only [removeDuplicatesFrom]
    split
    · exact ih seen
    · rename_i hnot
      obtain ⟨ihnd, ihseen⟩ := ih (r.plate_number :: seen)
      refine ⟨?_, ?_⟩
      · simp only [List.map_cons, List.nodup_cons]
        refine ⟨?_, ihnd⟩
        intro hmem
        obtain ⟨r', hr', he⟩ := List.mem_map.mp hmem
        have := ihseen r' hr'
        simp [he] at this
      · intro r' hr'
        rcases List.mem_cons.mp hr' with h | h
        · subst h; exact hnot
        · exact fun hs => ihseen r' h (List.mem_cons_of_mem _ hs)

theorem removeDuplicatesFrom_find (seen : List String) (l : List PlateResult)
    (p : String) (hp : p ∉ seen) :
    (removeDuplicatesFrom seen l).find? (fun r => r.plate_number == p)
      = l.find? (fun r => r.plate_number == p) := by
  induction l generalizing seen with
  | nil => rfl
  | cons r rest ih =>
    simp only [removeDuplicatesFrom]
    split
    · rename_i hin
      have hne : (r.plate_number == p) = false := by
        simp only [beq_eq_false_iff_ne, ne_eq]
        intro h
        exact hp (h ▸ hin)
      rw [List.find?_cons_of_neg _ (by simp [hne]), ih seen hp]
    · rename_i hnot
      by_cases hpr : (r.plate_number == p) = true
      · rw [List.find?_cons_of_pos (p := fun x : PlateResult => x.plate_number == p) _ hpr,
          List.find?_cons_of_pos (p := fun x : PlateResult => x.plate_number == p) _ hpr]
      · have hp' : p ∉ r.plate_number :: seen := by
          simp only [List.mem_cons, not_or]
          refine ⟨?_, hp⟩
          intro h
          exact hpr (by simp [h])
        rw [List.find?_cons_of_neg (p := fun x : PlateResult => x.plate_number == p) _ hpr,
          List.find?_cons_of_neg (p := fun x : PlateResult => x.plate_number == p) _ hpr]
        exact ih _ hp'

/-- Claim C2: the result list `process_image` returns has pairwise distinct
`plate_number` strings; it is a sublist of the in-order accepted results
(discovery order preserved); and for every plate string the retained entry
is exactly the first accepted result carrying it, region and confidence
included. -/
theorem C2_dedup (cls : CharClasses) (extractOf : Region → String)
    (cands : List PlateCandidate) (save : Bool) (path : Option String) :
    ((process_image cls extractOf cands save path).results.map
        (fun r => r.plate_number)).Nodup ∧
    (process_image cls extractOf cands save path).results.Sublist
        (rawResults cls extractOf cands) ∧
    (∀ p : String,
      (process_image cls extractOf cands save path).results.find?
          (fun r => r.plate_number == p)
        = (rawResults cls extractOf cands).find?
            (fun r => r.plate_number == p)) := by
  refine ⟨(removeDuplicatesFrom_nodup [] _).1,
    removeDuplicatesFrom_sublist [] _, fun p => ?_⟩
  exact removeDuplicatesFrom_find [] _ p (by simp)

/-- Counterexample to claim C6 as stated: with an empty candidate list and
persistence requested, `process_image` still calls `cv2.imwrite` (main.py
lines 261-262 run regardless of the result list), so an image is encoded
and written to the output location. -/
theorem C6_counterexample :
    (process_image asciiClasses (fun _ => "") [] true
        (some "result.jpg")).written = some "result.jpg" ∧
    (process_image asciiClasses (fun _ => "") [] true
        (some "result.jpg")).results = [] :=
  ⟨rfl, rfl⟩

/-- Claim C6 amended: an empty localizer output yields an empty result list
and no annotation is drawn on the frame, but when persistence is requested
with an output location the (unannotated) frame is still encoded and
written there. -/
theorem C6_empty_output (cls : CharClasses) (extractOf : Region → String)
    (save : Bool) (path : Option String) :
    process_image cls extractOf [] save path
      = { results := [], drewBoxes := false,
          written := if save = true ∧ path.isSome = true then path
            else none } := by
  simp [process_image, rawResults, removeDuplicates, removeDuplicatesFrom]

/-! ### Validator lemmas -/

theorem density_iff (k n : ℕ) (hn : 0 < n) :
    ((0.8 : ℚ) ≤ (k : ℚ) / (n : ℚ)) ↔ 4 * n ≤ 5 * k := by
  rw [le_div_iff₀ (by exact_mod_cast hn : (0 : ℚ) < (n : ℚ))]
  constructor
  · intro h
    exact_mod_cast (by linarith : (4 : ℚ) * n ≤ 5 * k)
  · intro h
    have h' : (4 : ℚ) * n ≤ 5 * k := by exact_mod_cast h
    linarith

/-- Counterexample to claim C4 as stated: the source cleans with
`text.replace(' ', '')`, which strips only spaces, not all whitespace.
Every character of `"AB12\t"` is ASCII, where `asciiClasses` agrees with
CPython's classification, so this evaluates the Python predicate exactly:
the code accepts (cleaned length 5, density 4/5 = 0.8) while the claimed
whitespace-stripped rules reject (stripped length 4 is below 5). -/
theorem C4_counterexample :
    is_valid_plate_text asciiClasses "AB12\t" = true ∧
    ¬ spec_is_valid asciiClasses "AB12\t" := by
  constructor
  · decide
  · intro h
    obtain ⟨-, -, -, h5, -⟩ := h
    revert h5
    decide

/-- Claim C4 amended: `is_valid_plate_text` is a total deterministic
function accepting exactly the strings whose raw length is at least 4 and
whose SPACE-stripped form (only the space character removed, matching the
source) contains a letter and a digit, has length in `[5, 12]`, and has
alphanumeric density at least 0.80; in particular `""` and `"AB12"` are
rejected and `"AB 1234"` is accepted.  Proved parametrically in the
runtime's character classes, so it holds for CPython's Unicode-aware
classification (non-ASCII strings included); the example values rest only
on the Unicode-database facts that `'A'` is alphabetic, `'1'` is a digit,
and every character of `"AB1234"` is alphanumeric. -/
theorem C4_validator (cls : CharClasses) (text : String)
    (hA : cls.isalpha 'A' = true) (hd1 : cls.isdigit '1' = true)
    (halnum : ∀ c ∈ "AB1234".toList, cls.isalnum c = true) :
    (is_valid_plate_text cls text = true ↔ space_stripped_valid cls text) ∧
    is_valid_plate_text cls "" = false ∧
    is_valid_plate_text cls "AB12" = false ∧
    is_valid_plate_text cls "AB 1234" = true := by
  refine ⟨?_, rfl, ?_, ?_⟩
  · simp only [is_valid_plate_text, space_stripped_valid]
    by_cases h1 : text = "" ∨ text.length < 4
    · rw [if_pos h1]
      simp only [Bool.false_eq_true, false_iff]
      rintro ⟨h4, -⟩
      rcases h1 with he | hl
      · rw [he] at h4
        exact absurd h4 (by decide)
      · omega
    · rw [if_neg h1]
      push_neg at h1
      obtain ⟨hne, h4⟩ := h1
      by_cases h2 :
          (text.toList.filter (fun c => c != ' ')).any
              (fun c => cls.isalpha c) = true ∧
          (text.toList.filter (fun c => c != ' ')).any
              (fun c => cls.isdigit c) = true ∧
          5 ≤ (text.toList.filter (fun c => c != ' ')).length ∧
          (text.toList.filter (fun c => c != ' ')).length ≤ 12
      · rw [if_neg (not_not_intro h2)]
        obtain ⟨ha, hd, h5, h12⟩ := h2
        constructor
        · intro hden
          exact ⟨by omega, List.any_eq_true.mp ha, List.any_eq_true.mp hd,
            h5, h12,
            (density_iff _ _ (by omega)).mpr (of_decide_eq_true hden)⟩
        · rintro ⟨-, -, -, -, -, hden⟩
          exact decide_eq_true ((density_iff _ _ (by omega)).mp hden)
      · rw [if_pos h2]
        simp only [Bool.false_eq_true, false_iff]
        rintro ⟨-, hal, hdi, h5, h12, -⟩
        exact h2 ⟨List.any_eq_true.mpr hal, List.any_eq_true.mpr hdi, h5, h12⟩
  · simp only [is_valid_plate_text]
    rw [if_neg (by decide), if_pos (fun h => absurd h.2.2.1 (by decide))]
  · simp only [is_valid_plate_text]
    have hfe : "AB 1234".toList.filter (fun c => c != ' ')
        = "AB1234".toList := by decide
    rw [if_neg (by decide), hfe,
      if_neg (not_not_intro ⟨List.any_eq_true.mpr ⟨'A', by decide, hA⟩,
        List.any_eq_true.mpr ⟨'1', by decide, hd1⟩, by decide, by decide⟩),
      List.filter_eq_self.mpr halnum]
    decide

/-- Witness for C4: the amended theorem applied at the ASCII-fragment
classification (exact on the all-ASCII inputs involved), its hypotheses
discharged by evaluation. -/
theorem C4_validator_witness :
    (is_valid_plate_text asciiClasses "AB 1234" = true ↔
        space_stripped_valid asciiClasses "AB 1234") ∧
    is_valid_plate_text asciiClasses "" = false ∧
    is_valid_plate_text asciiClasses "AB12" = false ∧
    is_valid_plate_text asciiClasses "AB 1234" = true :=
  C4_validator asciiClasses "AB 1234" (by decide) (by decide) (by decide)

/-- Claim C8: `extract_text_from_plate` is total, and its `try/except`
boundary maps any internal failure of the OCR chain to the empty string,
never re-raising; when the body succeeds its string is returned unchanged.
Holds for every character classification the validator may consult. -/
theorem C8_extractor (cls : CharClasses)
    (passes : List (Except Unit (List String))) :
    (∀ e : Unit, extractTextCore cls passes = Except.error e →
        extract_text_from_plate cls passes = "") ∧
    (∀ s : String, extractTextCore cls passes = Except.ok s →
        extract_text_from_plate cls passes = s) := by
  constructor
  · intro e he
    unfold extract_text_from_plate
    rw [he]
  · intro s hs
    unfold extract_text_from_plate
    rw [hs]

/-- Witness for C8: a run whose first OCR pass raises extracts the empty
string. -/
theorem C8_extractor_witness :
    extract_text_from_plate asciiClasses [Except.error ()] = "" :=
  (C8_extractor asciiClasses [Except.error ()]).1 () rfl

/-! ### Localizer lemmas -/

theorem acceptRect_iff (r : Rect) :
    acceptRect r = true ↔
      ((2 : ℚ) ≤ (r.w : ℚ) / (r.h : ℚ) ∧ (r.w : ℚ) / (r.h : ℚ) ≤ 6 ∧
       80 < r.w ∧ 20 < r.h ∧ 2000 < r.w * r.h ∧ r.w * r.h < 50000) := by
  simp only [acceptRect, decide_eq_true_iff]
  by_cases hh : (0 : Int) < r.h
  · rw [if_pos hh]
  · rw [if_neg hh]
    constructor
    · rintro ⟨h2, -⟩
      norm_num at h2
    · rintro ⟨-, -, -, h20, -⟩
      exact absurd (by omega : (0 : Int) < r.h) hh

theorem acceptRect_size (r : Rect) (h : acceptRect r = true) :
    80 < r.w ∧ 20 < r.h :=
  ⟨((acceptRect_iff r).mp h).2.2.1, ((acceptRect_iff r).mp h).2.2.2.1⟩

theorem tradCandidateOf_bounds (W H sw sh ox oy : Int) (r : Rect)
    (hox : 0 ≤ ox) (hoy : 0 ≤ oy) (hW : sw + ox ≤ W) (hH : sh + oy ≤ H)
    (hx : 0 ≤ r.x) (hy : 0 ≤ r.y) (hxw : r.x + r.w ≤ sw)
    (hyh : r.y + r.h ≤ sh) (hacc : acceptRect r = true) :
    regionWithinFrame W H (tradCandidateOf sw sh ox oy r).bbox := by
  obtain ⟨hw, hh⟩ := acceptRect_size r hacc
  simp only [tradCandidateOf, padRect, regionWithinFrame]
  refine ⟨?_, ?_, ?_, ?_, ?_, ?_⟩ <;> omega

theorem mem_tradStep_foldl (sw sh ox oy : Int) (rects : List Rect)
    (acc : List TradCandidate) (c : TradCandidate)
    (h : c ∈ rects.foldl (tradStep sw sh ox oy) acc) :
    c ∈ acc ∨
      ∃ r ∈ rects, acceptRect r = true ∧ c = tradCandidateOf sw sh ox oy r := by
  induction rects generalizing acc with
  | nil => exact Or.inl h
  | cons r rest ih =>
    rcases ih (tradStep sw sh ox oy acc r) h with hacc | ⟨r', hr', ha', he'⟩
    · unfold tradStep at hacc
      by_cases hA : acceptRect r = true
      · rw [if_pos hA] at hacc
        split at hacc
        · exact Or.inl hacc
        · rcases List.mem_append.mp hacc with h1 | h2
          · exact Or.inl h1
          · exact Or.inr ⟨r, List.mem_cons_self r rest, hA, by simpa using h2⟩
      · rw [if_neg hA] at hacc
        exact Or.inl hacc
    · exact Or.inr ⟨r', List.mem_cons_of_mem r hr', ha', he'⟩

theorem mem_cands1 (sw sh ox oy : Int) (rects1 : List Rect)
    (c : TradCandidate)
    (h : c ∈ (rects1.filter acceptRect).map (tradCandidateOf sw sh ox oy)) :
    ∃ r ∈ rects1, acceptRect r = true ∧ c = tradCandidateOf sw sh ox oy r := by
  obtain ⟨r, hr, he⟩ := List.mem_map.mp h
  obtain ⟨hr1, hacc⟩ := List.mem_filter.mp hr
  exact ⟨r, hr1, hacc, he.symm⟩

theorem trad_provenance (W H : Int) (rects1 rects2 : List Rect)
    (vr : Option Region) (c : TradCandidate)
    (h : c ∈ detect_license_plates_traditional W H rects1 rects2 vr) :
    ∃ r, (r ∈ rects1 ∨ r ∈ rects2) ∧ acceptRect r = true ∧
      c = tradCandidateOf (searchGeom W H vr).2.2.1 (searchGeom W H vr).2.2.2
            (searchGeom W H vr).1 (searchGeom W H vr).2.1 r := by
  simp only [detect_license_plates_traditional] at h
  have h2 := List.mem_mergeSort.mp (List.mem_of_mem_take h)
  rcases mem_tradStep_foldl _ _ _ _ rects2 _ c h2 with hc | ⟨r, hr, ha, he⟩
  · obtain ⟨r, hr, ha, he⟩ := mem_cands1 _ _ _ _ rects1 c hc
    exact ⟨r, Or.inl hr, ha, he⟩
  · exact ⟨r, Or.inr hr, ha, he⟩

/-- Claim C5: under both strategies, and with or without a vehicle region,
every candidate bbox lies within the frame, provided the opaque
collaborators meet their contracts: the learned model's boxes are in-bounds
(ultralytics clips its boxes to the image), the vehicle region handed to
the traditional strategy is in-bounds, and the contour bounding boxes lie
within the search image (the `cv2.boundingRect` contract). -/
theorem C5_region_bounds (W H : Int) (use_model : Bool)
    (model_boxes : List (Region × ℚ)) (rects1 rects2 : List Rect)
    (vr : Option Region)
    (hmodel : ∀ b ∈ model_boxes, regionWithinFrame W H b.1)
    (hvr : ∀ v, vr = some v → regionWithinFrame W H v)
    (hrects : ∀ r ∈ rects1 ++ rects2,
      0 ≤ r.x ∧ 0 ≤ r.y ∧ r.x + r.w ≤ (searchGeom W H vr).2.2.1 ∧
        r.y + r.h ≤ (searchGeom W H vr).2.2.2) :
    (∀ c ∈ detect_license_plates_with_yolo use_model model_boxes,
        regionWithinFrame W H c.bbox) ∧
    (∀ c ∈ detect_license_plates_traditional W H rects1 rects2 vr,
        regionWithinFrame W H c.bbox) := by
  constructor
  · intro c hc
    unfold detect_license_plates_with_yolo at hc
    split at hc
    · obtain ⟨b, hb, he⟩ := List.mem_map.mp hc
      rw [← he]
      exact hmodel b hb
    · simp at hc
  · intro c hc
    obtain ⟨r, hr, hacc, he⟩ := trad_provenance W H rects1 rects2 vr c hc
    have hgeo : 0 ≤ (searchGeom W H vr).1 ∧ 0 ≤ (searchGeom W H vr).2.1 ∧
        (searchGeom W H vr).2.2.1 + (searchGeom W H vr).1 ≤ W ∧
        (searchGeom W H vr).2.2.2 + (searchGeom W H vr).2.1 ≤ H := by
      cases vr with
      | none => simp [searchGeom]
      | some v =>
        obtain ⟨hx1, hx12, hx2, hy1, hy12, hy2⟩ := hvr v rfl
        simp only [searchGeom]
        refine ⟨hx1, ?_, by omega, by omega⟩
        omega
    obtain ⟨hx, hy, hxw, hyh⟩ := hrects r (List.mem_append.mpr hr)
    rw [he]
    exact tradCandidateOf_bounds W H _ _ _ _ r hgeo.1 hgeo.2.1 hgeo.2.2.1
      hgeo.2.2.2 hx hy hxw hyh hacc

/-- Witness for C5 at a concrete frame, model box, contour box and no
vehicle region. -/
theorem C5_region_bounds_witness :
    (∀ c ∈ detect_license_plates_with_yolo true
        [({ x1 := 0, y1 := 0, x2 := 50, y2 := 30 }, 0)],
        regionWithinFrame 200 100 c.bbox) ∧
    (∀ c ∈ detect_license_plates_traditional 200 100
        [{ x := 5, y := 5, w := 100, h := 25 }] [] none,
        regionWithinFrame 200 100 c.bbox) :=
  C5_region_bounds 200 100 true
    [({ x1 := 0, y1 := 0, x2 := 50, y2 := 30 }, 0)]
    [{ x := 5, y := 5, w := 100, h := 25 }] [] none
    (by decide) (fun v h => by cases h) (by decide)

/-- Claim C7: every candidate the traditional strategy returns comes from a
contour rectangle passing the geometric filter (aspect ratio in `[2, 6]`,
width > 80, height > 20, area strictly between 2000 and 50000), equals
that rectangle padded/offset, has confidence 0 and score
`area * aspect_ratio`; and the returned list is sorted descending by score
and has at most 5 entries. -/
theorem C7_traditional (W H : Int) (rects1 rects2 : List Rect)
    (vr : Option Region) :
    (∀ c ∈ detect_license_plates_traditional W H rects1 rects2 vr,
      ∃ r, (r ∈ rects1 ∨ r ∈ rects2) ∧
        (2 : ℚ) ≤ (r.w : ℚ) / (r.h : ℚ) ∧ (r.w : ℚ) / (r.h : ℚ) ≤ 6 ∧
        80 < r.w ∧ 20 < r.h ∧ 2000 < r.w * r.h ∧ r.w * r.h < 50000 ∧
        c = tradCandidateOf (searchGeom W H vr).2.2.1
              (searchGeom W H vr).2.2.2 (searchGeom W H vr).1
              (searchGeom W H vr).2.1 r ∧
        c.confidence = 0 ∧
        c.score = ((r.w * r.h : Int) : ℚ) * ((r.w : ℚ) / (r.h : ℚ))) ∧
    (detect_license_plates_traditional W H rects1 rects2 vr).length ≤ 5 ∧
    (detect_license_plates_traditional W H rects1 rects2 vr).Pairwise
      (fun a b => b.score ≤ a.score) := by
  refine ⟨?_, ?_, ?_⟩
  · intro c hc
    obtain ⟨r, hr, hacc, he⟩ := trad_provenance W H rects1 rects2 vr c hc
    obtain ⟨h2, h6, hw, hh, ha1, ha2⟩ := (acceptRect_iff r).mp hacc
    refine ⟨r, hr, h2, h6, hw, hh, ha1, ha2, he, ?_, ?_⟩
    · rw [he]
      rfl
    · rw [he]
      simp only [tradCandidateOf]
      rw [if_pos (by omega : (0 : Int) < r.h)]
  · simp only [detect_license_plates_traditional]
    exact List.length_take_le 5 _
  · simp only [detect_license_plates_traditional]
    have htrans : ∀ a b c : TradCandidate,
        decide (b.score ≤ a.score) = true →
        decide (c.score ≤ b.score) = true →
        decide (c.score ≤ a.score) = true := by
      intro a b c hab hbc
      simp only [decide_eq_true_iff] at *
      exact le_trans hbc hab
    have htotal : ∀ a b : TradCandidate,
        (decide (b.score ≤ a.score) || decide (a.score ≤ b.score)) = true := by
      intro a b
      simp only [Bool.or_eq_true, decide_eq_true_iff]
      exact le_total b.score a.score
    have hs := List.sorted_mergeSort htrans htotal
      ((rects1.filter acceptRect).map
          (tradCandidateOf (searchGeom W H vr).2.2.1 (searchGeom W H vr).2.2.2
            (searchGeom W H vr).1 (searchGeom W H vr).2.1)
        |> (rects2.foldl (tradStep (searchGeom W H vr).2.2.1
            (searchGeom W H vr).2.2.2 (searchGeom W H vr).1
            (searchGeom W H vr).2.1)))
    exact (List.Pairwise.sublist (List.take_sublist 5 _) hs).imp
      (fun h => of_decide_eq_true h)

end Garage
